import Mathlib

/-!
Shallow embedding of the sktime prototype timeseries container
(src/sktime/container/array.py) and proofs about its specification.

Modelling conventions:
* Numeric cells are modelled by the type Val: either the not-a-number
  sentinel or a finite value. Finite float64 values are modelled as
  integers; the IEEE behaviour the code relies on (nan == nan is false,
  nan != nan is true, nan + x is nan, np.isnan) is modelled explicitly.
* numpy 2-D arrays are modelled as lists of row lists. numpy arrays are
  always rectangular; the rectangularity check is part of the modelled
  shape validator.
* Fallible Python code (raise) is modelled with Except.
* The helpers check_data_index, ensure_2d and the TimeBase class live in
  sktime/container/base.py, which is not part of the analysed sources;
  they are modelled from the spec where noted.
-/

/-- A numeric cell: the not-a-number sentinel or a finite number. -/
inductive Val where
  | nan : Val
  | num (z : Int) : Val
deriving DecidableEq, Repr

/-- IEEE equality on cells: nan compares unequal to everything, itself
included; used for numpy elementwise ==. -/
def vEq : Val → Val → Bool
  | Val.num a, Val.num b => a == b
  | _, _ => false

/-- IEEE disequality on cells: nan != anything is true; used for numpy
elementwise !=. -/
def vNe : Val → Val → Bool
  | Val.num a, Val.num b => !(a == b)
  | _, _ => true

/-- Cell addition with nan propagation. -/
def vAdd : Val → Val → Val
  | Val.num a, Val.num b => Val.num (a + b)
  | _, _ => Val.nan

/-- np.isnan on one cell. -/
def isnanV : Val → Bool
  | Val.nan => true
  | Val.num _ => false

/-- A 2-D numeric array: a list of rows. -/
abbrev Matrix' := List (List Val)

/-- Number of rows (shape[0]). -/
def nrows (m : Matrix') : Nat := m.length

/-- Number of columns (shape[1]); the width of the first row. -/
def ncols (m : Matrix') : Nat := (m.headD []).length

/-- A list-of-rows value represents a genuine 2-D numpy array iff all rows
have the same length. -/
def isRect (m : Matrix') : Bool := m.all (fun r => r.length == ncols m)

/-- Shape equality of two 2-D arrays. -/
def sameShape (a b : Matrix') : Bool :=
  nrows a == nrows b && ncols a == ncols b

/-- Modelled from the spec: ShapeValidator.check (check_data_index in
sktime/container/base.py, not among the analysed sources) holds iff both
arguments are 2-dimensional arrays of identical shape. -/
def checkDataIndex (d t : Matrix') : Bool :=
  isRect d && isRect t && sameShape d t

/-- An n x w matrix every cell of which is the sentinel (np.full(.., nan)). -/
def nanMat (n w : Nat) : Matrix' :=
  List.replicate n (List.replicate w Val.nan)

/-- Modelled from the spec: TimeBase (sktime/container/base.py, not among
the analysed sources) is one series, a 1 x w pair of aligned value/time
rows; we store the single row of each matrix. -/
structure TimeBase where
  data : List Val
  time_index : List Val
deriving DecidableEq, Repr

/-- TimeBase.isna summarised per series, modelled from the spec: a series
is missing iff every value cell and every time cell is the sentinel. -/
def tbIsna (tb : TimeBase) : Bool :=
  tb.data.all isnanV && tb.time_index.all isnanV

/-- The container: two parallel matrices (TimeArray.data and
TimeArray.time_index). -/
structure TimeArray where
  data : Matrix'
  time_index : Matrix'
deriving DecidableEq, Repr

/-- Invariant I1: the two matrices are well-shaped and share one shape. -/
def wfTA (c : TimeArray) : Bool := checkDataIndex c.data c.time_index

/-- Errors raised by the container, named as in the spec's taxonomy. -/
inductive Err where
  | ShapeMismatch
  | UnsupportedInputType
  | WidthMismatch
  | UnsupportedCast
  | IncompatibleIndex
  | IndexOutOfRange
  | InvalidFillValue
  | UnsupportedType
  | MalformedSeriesText
  | NotImplementedErr
  | InvalidIndices
deriving DecidableEq, Repr

/-- The default time index np.arange(w) as one row. -/
def natRange (w : Nat) : List Val := (List.range w).map (fun n => Val.num (Int.ofNat n))

/-- The value matrix resolved by TimeArray.__init__: None becomes the
1 x 0 all-sentinel matrix, a TimeArray contributes its data, an array is
taken as given. -/
def taDataOf (dataArg : Option (Sum TimeArray Matrix')) : Matrix' :=
  match dataArg with
  | none => [[]]
  | some (Sum.inl ta) => ta.data
  | some (Sum.inr m) => m

/-- The time index resolved by TimeArray.__init__: an explicit index wins;
else a TimeArray argument supplies its own; else a default 0..w-1 index is
generated per row (a 0-row matrix keeps a copy of the data). -/
def taTimeOf (dataArg : Option (Sum TimeArray Matrix')) (timeIndex : Option Matrix') :
    Matrix' :=
  match timeIndex with
  | some ti => ti
  | none =>
    match dataArg with
    | some (Sum.inl ta) => ta.time_index
    | _ =>
      let d := taDataOf dataArg
      if nrows d == 1 then [natRange (ncols d)]
      else if 1 < nrows d then List.replicate (nrows d) (natRange (ncols d))
      else d

/-- Final step of TimeArray.__init__: the check_data_index shape check. -/
def finishTA (d t : Matrix') : Except Err TimeArray :=
  if checkDataIndex d t then Except.ok ⟨d, t⟩ else Except.error Err.ShapeMismatch

/-- TimeArray.__init__ (array.py lines 205-241). -/
def mkTA (dataArg : Option (Sum TimeArray Matrix')) (timeIndex : Option Matrix') :
    Except Err TimeArray :=
  finishTA (taDataOf dataArg) (taTimeOf dataArg timeIndex)

/-- All cells of a matrix satisfy a predicate (np.all of an elementwise
test; vacuously true on empty arrays, as in numpy). -/
def matAllCells (p : Val → Bool) (m : Matrix') : Bool :=
  m.all (fun r => r.all p)

/-- np.all of an elementwise binary comparison of two same-shaped arrays. -/
def matAll2 (p : Val → Val → Bool) (a b : Matrix') : Bool :=
  (a.zip b).all (fun rc => (rc.1.zip rc.2).all (fun pq => p pq.1 pq.2))

/-- Elementwise matrix addition (numpy +, modelled for identical shapes). -/
def matAdd (a b : Matrix') : Matrix' :=
  List.zipWith (fun r s => List.zipWith vAdd r s) a b

/-- TimeArray.isna (array.py lines 395-404): a row is missing iff every
data cell and every time cell of the row is nan. -/
def isna (c : TimeArray) : List Bool :=
  List.zipWith (fun dr tr => dr.all isnanV && tr.all isnanV) c.data c.time_index

/-- TimeArray.__eq__ against another TimeArray (array.py lines 439-448):
one scalar boolean, np.all over both elementwise comparisons. -/
def taEq (a b : TimeArray) : Bool :=
  matAll2 vEq a.data b.data && matAll2 vEq a.time_index b.time_index

/-- TimeArray.__add__ (array.py lines 450-454): raises only when every
time cell differs (np.all of the elementwise !=); otherwise adds the value
matrices and keeps the left operand's time index. Broadcasting is modelled
for identically shaped operands only. -/
def addTA (a b : TimeArray) : Except Err TimeArray :=
  if !(sameShape a.data b.data && sameShape a.time_index b.time_index) then
    Except.error Err.ShapeMismatch
  else if matAll2 vNe a.time_index b.time_index then
    Except.error Err.IncompatibleIndex
  else
    mkTA (some (Sum.inr (matAdd a.data b.data))) (some a.time_index)

/-- TimeArray.copy (array.py lines 456-457). -/
def copyTA (c : TimeArray) : Except Err TimeArray :=
  mkTA (some (Sum.inr c.data)) (some c.time_index)

/-- TimeArray.__array__ (array.py lines 433-434): one TimeBase per row. -/
def toTimeBases (c : TimeArray) : List TimeBase :=
  (List.range (nrows c.data)).map
    (fun i => ⟨c.data.getD i [], c.time_index.getD i []⟩)

/-- Resolve one integer index against n rows with numpy semantics:
negative indices count from the end, anything out of range raises. -/
def resolveIdx (i : Int) (n : Nat) : Except Err Nat :=
  if 0 ≤ i ∧ i < (n : Int) then Except.ok i.toNat
  else if i < 0 ∧ -(n : Int) ≤ i then Except.ok ((i + (n : Int)).toNat)
  else Except.error Err.IndexOutOfRange

/-- numpy fancy row indexing m[idxs] of a 2-D array. -/
def numpyRows (m : Matrix') (idxs : List Int) : Except Err Matrix' :=
  idxs.mapM (fun i => (resolveIdx i (nrows m)).map (fun k => m.getD k []))

/-- TimeArray.__getitem__ with a scalar index (array.py lines 335-345):
None when the row is fully missing in both matrices, else the TimeBase. -/
def indexGetScalar (c : TimeArray) (i : Int) : Except Err (Option TimeBase) := do
  let k ← resolveIdx i (nrows c.data)
  let dr := c.data.getD k []
  let tr := c.time_index.getD k []
  if dr.all isnanV && tr.all isnanV then pure none
  else pure (some ⟨dr, tr⟩)

/-- TimeArray.__getitem__ with an index sequence (array.py lines 346-347):
select the rows of both matrices and rebuild via the constructor. -/
def indexGetSeq (c : TimeArray) (idxs : List Int) : Except Err TimeArray := do
  let d ← numpyRows c.data idxs
  let t ← numpyRows c.time_index idxs
  mkTA (some (Sum.inr d)) (some t)

/-- Broadcast a source row into a width-w slot (numpy assignment
broadcasting: exact width, or a single cell repeated). -/
def broadcastRow (src : List Val) (w : Nat) : Except Err (List Val) :=
  if src.length = w then Except.ok src
  else if src.length = 1 then Except.ok (List.replicate w (src.headD Val.nan))
  else Except.error Err.ShapeMismatch

/-- TimeArray.__setitem__ for one row (array.py lines 352-368): None or an
all-missing value writes the sentinel across the row; otherwise the
value's rows are written into both matrices in place. -/
def indexSet (c : TimeArray) (key : Int) (v : Option TimeBase) :
    Except Err TimeArray := do
  let k ← resolveIdx key (nrows c.data)
  match v with
  | none =>
    pure ⟨c.data.set k (List.replicate (c.data.getD k []).length Val.nan),
          c.time_index.set k (List.replicate (c.time_index.getD k []).length Val.nan)⟩
  | some tb =>
    if tbIsna tb then
      pure ⟨c.data.set k (List.replicate (c.data.getD k []).length Val.nan),
            c.time_index.set k (List.replicate (c.time_index.getD k []).length Val.nan)⟩
    else do
      let nd ← broadcastRow tb.data (c.data.getD k []).length
      let nt ← broadcastRow tb.time_index (c.time_index.getD k []).length
      pure ⟨c.data.set k nd, c.time_index.set k nt⟩

/-- A fill value handed to take: null, a TimeBase, or anything else. -/
inductive FillV where
  | null : FillV
  | series (tb : TimeBase) : FillV
  | other : FillV
deriving DecidableEq, Repr

/-- The allow_fill branch of pandas.api.extensions.take on a 2-D array:
indices below -1 raise, indices at or above the length raise IndexError,
and -1 gathers a sentinel-filled row (fill_value is not forwarded by the
caller, so the default nan fill applies). -/
def pdTakeFill (m : Matrix') (idxs : List Int) : Except Err Matrix' :=
  if idxs.any (fun i => i < -1) then Except.error Err.InvalidIndices
  else if idxs.any (fun i => (nrows m : Int) ≤ i) then Except.error Err.IndexOutOfRange
  else Except.ok (idxs.map (fun i =>
    if i = -1 then List.replicate (ncols m) Val.nan else m.getD i.toNat []))

/-- pandas.api.extensions.take on a 2-D array: without fill, plain numpy
row gathering (negative indices wrap, out-of-range raises). -/
def pdTake (m : Matrix') (idxs : List Int) : Bool → Except Err Matrix'
  | true => pdTakeFill m idxs
  | false => numpyRows m idxs

/-- The TimeBase fill step of TimeArray.take (array.py lines 466-472):
rows of the gathered result that are all-sentinel and whose index is out
of range of the gathered result (the source uses data.shape[0], the
gathered length) are overwritten with the fill series. -/
def applyFillRows (rows : Matrix') (idxs : List Int) (fillRow : List Val) :
    Except Err Matrix' :=
  (idxs.zip rows).mapM (fun ir =>
    if ir.2.all isnanV && (ir.1 < 0 || (nrows rows : Int) ≤ ir.1) then
      broadcastRow fillRow ir.2.length
    else Except.ok ir.2)

/-- Dispatch of the fill step in TimeArray.take: only active with
allow_fill and a TimeBase fill value. With allow_fill and a fill value
that is neither a TimeBase nor None, the source constructs a TypeError
but never raises it, so that combination is a no-op here as in the code. -/
def fillStep (af : Bool) (fv : FillV) (rows : Matrix') (idxs : List Int)
    (pick : TimeBase → List Val) : Except Err Matrix' :=
  match af, fv with
  | true, FillV.series tb => applyFillRows rows idxs (pick tb)
  | _, _ => Except.ok rows

/-- TimeArray.take (array.py lines 459-482): gather both matrices with
the pandas take, apply the TimeBase fill step, and collapse a non-empty
all-sentinel gather to the 0-column all-missing container. -/
def takeTA (c : TimeArray) (idxs : List Int) (allowFill : Bool) (fv : FillV) :
    Except Err TimeArray := do
  let d0 ← pdTake c.data idxs allowFill
  let t0 ← pdTake c.time_index idxs allowFill
  let d ← fillStep allowFill fv d0 idxs (fun tb => tb.data)
  let t ← fillStep allowFill fv t0 idxs (fun tb => tb.time_index)
  if nrows d ≠ 0 && matAllCells isnanV d then
    mkTA (some (Sum.inr (nanMat (nrows d) 0))) none
  else
    mkTA (some (Sum.inr d)) (some t)

/-- An input item for from_list, restricted to the forms the claims
exercise: a series object or None. -/
abbrev Item := Option TimeBase

/-- Row of the stacked value matrix contributed by one item once the
resolved width w is known: None items become a sentinel row (array.py
line 93). -/
def rowOfItem (w : Nat) : Item → List Val
  | none => List.replicate w Val.nan
  | some tb => tb.data

/-- Row of the stacked time matrix contributed by one item (array.py
line 94). -/
def tRowOfItem (w : Nat) : Item → List Val
  | none => List.replicate w Val.nan
  | some tb => tb.time_index

/-- The first resolved (non-None) item of the input list. -/
def firstResolved (items : List Item) : Option TimeBase :=
  (items.filterMap id).head?

/-- The width of the first resolved row (array.py line 92); 0 when every
item is unresolved (that case never reaches the width computation). -/
def firstWidth (items : List Item) : Nat :=
  (firstResolved items).elim 0 (fun tb => tb.data.length)

/-- from_list (array.py lines 53-100). Each series item passes the
check_data_index validation; if every item is None the result is the n x 0
all-missing container; otherwise None items are padded to the width of the
first resolved item, all resolved widths must agree with it, and the rows
are stacked into a new TimeArray. -/
def from_list (items : List Item) : Except Err TimeArray :=
  if items.any (fun it =>
      match it with
      | some tb => !(tb.data.length == tb.time_index.length)
      | none => false) then
    Except.error Err.ShapeMismatch
  else if items.all Option.isNone then
    mkTA (some (Sum.inr (nanMat items.length 0))) none
  else if items.all (fun it =>
      match it with
      | some tb => tb.data.length == firstWidth items
      | none => true) then
    mkTA (some (Sum.inr (items.map (rowOfItem (firstWidth items)))))
         (some (items.map (tRowOfItem (firstWidth items))))
  else
    Except.error Err.WidthMismatch

/-- Input to from_pandas: a labeled series of items, or a frame given by
its column labels and cell matrix. -/
inductive PandasInput where
  | ser (items : List Item) : PandasInput
  | frame (cols : List Val) (cells : Matrix') : PandasInput

/-- from_pandas (array.py lines 103-111): a series delegates to from_list;
a frame repeats its column labels as the time index of every row. -/
def from_pandas (p : PandasInput) : Except Err TimeArray :=
  match p with
  | PandasInput.ser items => from_list items
  | PandasInput.frame cols cells =>
    mkTA (some (Sum.inr cells)) (some (List.replicate (nrows cells) cols))

/-- Distinct values of a list in first-occurrence order. -/
def dedupFirst {α : Type} [DecidableEq α] (l : List α) : List α :=
  l.foldl (fun acc k => if acc.contains k then acc else acc ++ [k]) []

/-- The distinct positive widths among the containers to concatenate
(np.unique of the positive entries of the width vector; only emptiness
and singleness matter, so first-occurrence order stands in for sorted
order). -/
def concatRefs (ls : List TimeArray) : List Nat :=
  dedupFirst ((ls.map (fun x => ncols x.data)).filter (fun w => 0 < w))

/-- The stacked matrix of one concatenation: 0-width segments are padded
to the reference width w with sentinel rows, the rest contribute the
selected matrix unchanged. -/
def concatStack (ls : List TimeArray) (w : Nat) (pick : TimeArray → Matrix') : Matrix' :=
  (ls.map (fun x => if ncols x.data = 0 then nanMat (nrows x.data) w else pick x)).flatten

/-- TimeArray._concat_same_type (array.py lines 310-329): one shared
positive width is resolved (0 if none, WidthMismatch if several), 0-width
segments are sentinel-padded to it, and the segments are stacked. -/
def concatTA (ls : List TimeArray) : Except Err TimeArray :=
  match concatRefs ls with
  | [] =>
    mkTA (some (Sum.inr (concatStack ls 0 (fun x => x.data))))
         (some (concatStack ls 0 (fun x => x.time_index)))
  | [w] =>
    mkTA (some (Sum.inr (concatStack ls w (fun x => x.data))))
         (some (concatStack ls w (fun x => x.time_index)))
  | _ => Except.error Err.WidthMismatch

/-- Cast targets of TimeArray.astype. -/
inductive Dtype where
  | time : Dtype
  | obj : Dtype
  | strKind : Dtype
  | other : Dtype
deriving DecidableEq, Repr

/-- Result of TimeArray.astype: a container, an object array of series, or
a string array. -/
inductive CastResult where
  | ta (c : TimeArray) : CastResult
  | objArr (tbs : List TimeBase) : CastResult
  | strArr (ss : List (List Char)) : CastResult
deriving DecidableEq

/-- np.isin of one row against a list of targets (elementwise ==
membership; nan never matches). -/
def isinRow (row : List Val) (target : List Val) : List Bool :=
  row.map (fun t => target.any (fun u => vEq u t))

/-- Select the columns of a row allowed by a boolean mask. -/
def selectCols (sel : List Bool) (row : List Val) : List Val :=
  ((sel.zip row).filter (fun p => p.1)).map (fun p => p.2)

/-- TimeArray.slice_time (array.py lines 531-536): the first row's time
index is the reference axis; the same column selection applies to every
row of both matrices. -/
def slice_time (c : TimeArray) (target : List Val) : Except Err TimeArray :=
  let sel := isinRow (c.time_index.headD []) target
  mkTA (some (Sum.inr (c.data.map (selectCols sel))))
       (some (c.time_index.map (selectCols sel)))

/-- Python str.split worker on character lists: accumulate until the
separator prefixes the remainder, then emit a piece and continue. Every
step consumes at least one character, so the fuel argument (seeded with
one more than the input length) is never exhausted. -/
def splitGo (sep : List Char) : Nat → List Char → List Char → List (List Char)
  | _, [], acc => [acc.reverse]
  | 0, l, acc => [acc.reverse ++ l]
  | fuel + 1, c :: rest, acc =>
    if !sep.isEmpty && sep.isPrefixOf (c :: rest) then
      acc.reverse :: splitGo sep fuel (List.drop sep.length (c :: rest)) []
    else
      splitGo sep fuel rest (c :: acc)

/-- Python str.split with a non-empty separator. -/
def splitOnL (sep l : List Char) : List (List Char) :=
  if sep = [] then [l] else splitGo sep (l.length + 1) l []

/-- A parenthesis character, for Python str.strip of the "()" set. -/
def isParen (c : Char) : Bool := c = '(' || c = ')'

/-- Python line.strip of parenthesis characters at both ends. -/
def stripParens (l : List Char) : List Char :=
  ((l.dropWhile isParen).reverse.dropWhile isParen).reverse

/-- Nonnegative decimal digits parsed left to right; fails on any
non-digit character. -/
def parseDigitsGo : List Char → Nat → Option Nat
  | [], acc => some acc
  | c :: rest, acc =>
    if c.isDigit then parseDigitsGo rest (acc * 10 + (c.toNat - 48)) else none

/-- Numeric text to a cell (np.float applied to one token); the nan token
parses to the sentinel, other malformed text raises. Finite numbers are
modelled as integer literals. -/
def parseVal (s : List Char) : Except Err Val :=
  if s = [ 'n', 'a', 'n' ] then Except.ok Val.nan
  else
    match s with
    | '-' :: c :: rest =>
      match parseDigitsGo (c :: rest) 0 with
      | some n => Except.ok (Val.num (-(Int.ofNat n)))
      | none => Except.error Err.MalformedSeriesText
    | c :: rest =>
      match parseDigitsGo (c :: rest) 0 with
      | some n => Except.ok (Val.num (Int.ofNat n))
      | none => Except.error Err.MalformedSeriesText
    | [] => Except.error Err.MalformedSeriesText

/-- A cell rendered as text (str applied to one number). -/
def valStr : Val → List Char
  | Val.nan => [ 'n', 'a', 'n' ]
  | Val.num z => (toString z).data

/-- One line of to_ts (array.py line 145): the per-point texts joined with
the pair separator and wrapped in parentheses. Note that the source binds
the value cells to the loop variable written first and the time cells to
the one written second, so each pair renders the value before the time. -/
def rowStr (tb : TimeBase) : List Char :=
  '(' :: (List.intercalate (')' :: ',' :: [ '(' ])
    (List.zipWith (fun dv tv => valStr dv ++ ',' :: valStr tv)
      tb.data tb.time_index)) ++ [ ')' ]

/-- to_ts (array.py lines 128-145) on a TimeArray: a header is not
implemented; otherwise one string per row of the object-cast container. -/
def to_ts (c : TimeArray) (includeHeader : Bool) : Except Err (List (List Char)) :=
  if includeHeader then Except.error Err.NotImplementedErr
  else Except.ok ((toTimeBases c).map rowStr)

/-- One point "a,b" of a serialized line: the first component is the time
index and the second the data value. -/
def parsePoint (p : List Char) : Except Err (Val × Val) :=
  match splitOnL [ ',' ] p with
  | [a, b] => do
    let ia ← parseVal a
    let db ← parseVal b
    pure (ia, db)
  | _ => Except.error Err.MalformedSeriesText

/-- parse_line inside from_ts (array.py lines 120-124): strip the outer
parentheses, split on the pair separator, split each point on the comma;
a TimeBase is built from the data components and the time components. -/
def parse_line (l : List Char) : Except Err TimeBase := do
  let points := splitOnL (')' :: ',' :: [ '(' ]) (stripParens l)
  let pairs ← points.mapM parsePoint
  pure ⟨pairs.map (fun q => q.2), pairs.map (fun q => q.1)⟩

/-- from_ts (array.py lines 114-126): parse every line into a TimeBase and
normalize the batch through from_list. -/
def from_ts (lines : List (List Char)) : Except Err TimeArray := do
  let tbs ← lines.mapM parse_line
  from_list (tbs.map some)

/-- TimeArray.astype (array.py lines 406-417). The string cast renders
each series via its text form; str of a TimeBase is modelled from the spec
as its TextCodec representation. -/
def astypeTA (c : TimeArray) (dt : Dtype) (cp : Bool) : Except Err CastResult :=
  match dt with
  | Dtype.time =>
    if cp then (copyTA c).map CastResult.ta else Except.ok (CastResult.ta c)
  | Dtype.strKind => Except.ok (CastResult.strArr ((toTimeBases c).map rowStr))
  | Dtype.obj => Except.ok (CastResult.objArr (toTimeBases c))
  | Dtype.other => Except.error Err.UnsupportedCast

/-- pandas.factorize codes over string keys: each key's position among the
distinct keys taken in first-occurrence order. -/
def factorizeCodes (keys : List (List Char)) : List Nat :=
  let uniques := dedupFirst keys
  keys.map (fun k => uniques.indexOf k)

/-- Insertion into a sorted list of naturals. -/
def insertSorted (n : Nat) : List Nat → List Nat
  | [] => [n]
  | m :: rest => if n ≤ m then n :: m :: rest else m :: insertSorted n rest

/-- np.unique: the distinct values in ascending order. -/
def npUnique (l : List Nat) : List Nat :=
  (dedupFirst l).foldr insertSorted []

/-- TimeArray.unique (array.py lines 419-424): factorize the rows by their
string form, then index the container by np.unique of the codes (the code
values themselves, not the first-occurrence row positions). -/
def uniqueTA (c : TimeArray) : Except Err TimeArray :=
  let keys := (toTimeBases c).map rowStr
  let codes := factorizeCodes keys
  indexGetSeq c ((npUnique codes).map Int.ofNat)

deriving instance DecidableEq for Except

/-- No cell of the container is the sentinel. -/
def noNan (c : TimeArray) : Bool :=
  matAllCells (fun v => !isnanV v) c.data && matAllCells (fun v => !isnanV v) c.time_index

/-- Concrete container for the round-trip check: values 1, time index 0. -/
def cRound : TimeArray := ⟨[[Val.num 1]], [[Val.num 0]]⟩

/-- Concrete container for the serialization-format check. -/
def cSer : TimeArray := ⟨[[Val.num 1]], [[Val.num 0]]⟩

/-- Concrete 2-row container for the take fill-value check. -/
def cFill : TimeArray := ⟨[[Val.num 1], [Val.num 2]], [[Val.num 0], [Val.num 0]]⟩

/-- Left operand for the add check: times 0 and 1. -/
def cAddL : TimeArray := ⟨[[Val.num 1, Val.num 10]], [[Val.num 0, Val.num 1]]⟩

/-- Right operand for the add check: times 0 and 2, so the time indices
agree in the first column and disagree in the second. -/
def cAddR : TimeArray := ⟨[[Val.num 5, Val.num 6]], [[Val.num 0, Val.num 2]]⟩

/-- Concrete container for the unique check: the first two rows serialize
identically, the third differs. -/
def cDup : TimeArray :=
  ⟨[[Val.num 1], [Val.num 1], [Val.num 2]], [[Val.num 0], [Val.num 0], [Val.num 0]]⟩

/-- Concrete container holding a sentinel value cell. -/
def cSent : TimeArray := ⟨[[Val.nan]], [[Val.num 0]]⟩

/-- Concrete width-3 series for the normalizer padding check. -/
def sPad : TimeBase :=
  ⟨[Val.num 1, Val.num 2, Val.num 3], [Val.num 0, Val.num 1, Val.num 2]⟩

/-- Concrete 2-row container for the take out-of-range check. -/
def cGather : TimeArray := ⟨[[Val.num 1], [Val.num 2]], [[Val.num 0], [Val.num 0]]⟩

/-- Concrete well-formed container exercised by the shape-invariant
witnesses. -/
def cInv : TimeArray := ⟨[[Val.num 3, Val.num 4]], [[Val.num 0, Val.num 1]]⟩

/-- Concrete mixed input list for the normalizer padding check: one
resolved width-3 series followed by one missing entry. -/
def padItems : List Item := [some sPad, none]

/-- The container the normalizer builds from padItems. -/
def cPadRes : TimeArray :=
  ⟨[[Val.num 1, Val.num 2, Val.num 3], [Val.nan, Val.nan, Val.nan]],
   [[Val.num 0, Val.num 1, Val.num 2], [Val.nan, Val.nan, Val.nan]]⟩

theorem exceptBind_ok {ε α β : Type} {x : Except ε α} {f : α → Except ε β} {c : β}
    (h : (x >>= f) = Except.ok c) : ∃ v, x = Except.ok v ∧ f v = Except.ok c := by
  cases x with
  | error e => simp [Bind.bind, Except.bind] at h
  | ok v => exact ⟨v, rfl, by simpa [Bind.bind, Except.bind] using h⟩

theorem finishTA_wf {d t : Matrix'} {c : TimeArray}
    (h : finishTA d t = Except.ok c) : wfTA c = true := by
  unfold finishTA at h
  split at h
  · cases Except.ok.inj h
    assumption
  · exact absurd h (by simp)

theorem mkTA_wf {dataArg : Option (Sum TimeArray Matrix')} {timeIndex : Option Matrix'}
    {c : TimeArray} (h : mkTA dataArg timeIndex = Except.ok c) : wfTA c = true :=
  finishTA_wf h

theorem zipWithMapMap {α β γ δ : Type} (k : β → γ → δ) (f : α → β) (g : α → γ) :
    ∀ l : List α, List.zipWith k (l.map f) (l.map g) = l.map (fun x => k (f x) (g x)) := by
  intro l
  induction l with
  | nil => rfl
  | cons x xs ih => simp [ih]

theorem replicate_all_nan (w : Nat) : (List.replicate w Val.nan).all isnanV = true := by
  simp [List.all_eq_true, List.mem_replicate, isnanV]

theorem vEq_symm (x y : Val) : vEq x y = vEq y x := by
  cases x with
  | nan => cases y <;> rfl
  | num a =>
    cases y with
    | nan => rfl
    | num b =>
      show (a == b) = (b == a)
      exact Bool.eq_iff_iff.mpr (by simp [beq_iff_eq]; exact eq_comm)

theorem vEq_refl_of_num (x : Val) (h : (!isnanV x) = true) : vEq x x = true := by
  cases x with
  | nan => simp [isnanV] at h
  | num a => simp [vEq]

theorem zipAllSymm {α : Type} (f : α → α → Bool) (hf : ∀ x y, f x y = f y x) :
    ∀ a b : List α,
      ((a.zip b).all fun p => f p.1 p.2) = ((b.zip a).all fun p => f p.1 p.2) := by
  intro a
  induction a with
  | nil => intro b; cases b <;> simp
  | cons x xs ih =>
    intro b
    cases b with
    | nil => simp
    | cons y ys => simp [hf x y, ih ys]

theorem matAll2_symm (f : Val → Val → Bool) (hf : ∀ x y, f x y = f y x) (a b : Matrix') :
    matAll2 f a b = matAll2 f b a := by
  unfold matAll2
  exact zipAllSymm (fun r s => (r.zip s).all fun pq => f pq.1 pq.2)
    (fun r s => zipAllSymm f hf r s) a b

theorem zipAllRefl {α : Type} (f : α → α → Bool) (p : α → Bool)
    (hp : ∀ x, p x = true → f x x = true) :
    ∀ a : List α, a.all p = true → ((a.zip a).all fun q => f q.1 q.2) = true := by
  intro a
  induction a with
  | nil => simp
  | cons x xs ih =>
    intro h
    simp only [List.all_cons, Bool.and_eq_true] at h
    simp [hp x h.1, ih h.2]

theorem matAll2_refl (f : Val → Val → Bool) (p : Val → Bool)
    (hp : ∀ x, p x = true → f x x = true) (a : Matrix')
    (ha : matAllCells p a = true) : matAll2 f a a = true := by
  unfold matAll2
  unfold matAllCells at ha
  exact zipAllRefl (fun r s => (r.zip s).all fun pq => f pq.1 pq.2) (fun r => r.all p)
    (fun r hr => zipAllRefl f p hp r hr) a ha

/-- C1: the claim says the text round trip from_ts (to_ts c) recovers c
under equals for a uniform-width, fully finite container. The code
violates it: to_ts renders each pair as (value,time) while from_ts parses
each pair as (time,value), so the round trip swaps the value matrix and
the time matrix; on the container with values [[1]] and times [[0]] the
round trip yields values [[0]] and times [[1]], not equal to the input. -/
theorem roundtrip_swaps_value_and_time :
    (do let l ← to_ts cRound false; from_ts l)
      = Except.ok (⟨[[Val.num 0]], [[Val.num 1]]⟩ : TimeArray)
    ∧ taEq ⟨[[Val.num 0]], [[Val.num 1]]⟩ cRound = false
    ∧ taEq cRound cRound = true := by decide

/-- C2: the claim says each serialized pair renders the time cell first
and the value cell second. The code renders the value cell first: on the
container with value 1 at time 0 the emitted line is (1,0), not (0,1). -/
theorem to_ts_renders_value_before_time :
    to_ts cSer false = Except.ok [[ '(', '1', ',', '0', ')' ]]
    ∧ to_ts cSer false ≠ Except.ok [[ '(', '0', ',', '1', ')' ]] := by decide

/-- C3: the claim says take with allow_fill and a fill value that is
neither a series nor null raises InvalidFillValue. The code constructs
the TypeError but never raises it, so the call returns a container. -/
theorem take_invalid_fill_value_not_raised :
    takeTA cFill [0] true FillV.other = Except.ok ⟨[[Val.num 1]], [[Val.num 0]]⟩ := by
  decide

/-- C4: the claim says add fails with IncompatibleIndex unless every time
cell matches. The code raises only when every time cell differs, so two
containers whose time indices agree in one column and differ in another
are added without error. -/
theorem add_accepts_partially_matching_index :
    addTA cAddL cAddR = Except.ok ⟨[[Val.num 6, Val.num 16]], [[Val.num 0, Val.num 1]]⟩ := by
  decide

/-- C5: the claim says unique returns one row per distinct serialized
form, each taken from its first occurrence. The code indexes the
container by the factorize codes instead of the first-occurrence row
positions: on rows serializing as A, A, B it returns rows 0 and 1, which
are the duplicate form A twice, and drops B. -/
theorem unique_returns_duplicate_rows :
    uniqueTA cDup = Except.ok ⟨[[Val.num 1], [Val.num 1]], [[Val.num 0], [Val.num 0]]⟩ := by
  decide

/-- C6 counterexample: equality is not reflexive on a container holding a
sentinel cell, because the sentinel compares unequal to itself; the
container is built by the public constructor from a 1 x 1 sentinel
matrix. -/
theorem eq_not_reflexive_on_sentinel :
    mkTA (some (Sum.inr [[Val.nan]])) none = Except.ok cSent
    ∧ taEq cSent cSent = false := by decide

/-- C6 (amended): equality of containers is symmetric for all containers,
and reflexive for every container none of whose cells is the sentinel;
two containers built from the same sentinel-free inputs compare equal both
ways. -/
theorem taEq_symm_and_refl_on_finite :
    (∀ a b : TimeArray, taEq a b = taEq b a)
    ∧ (∀ c : TimeArray, noNan c = true → taEq c c = true) := by
  constructor
  · intro a b
    unfold taEq
    rw [matAll2_symm vEq vEq_symm a.data b.data,
        matAll2_symm vEq vEq_symm a.time_index b.time_index]
  · intro c hc
    unfold noNan at hc
    simp only [Bool.and_eq_true] at hc
    unfold taEq
    rw [matAll2_refl vEq (fun v => !isnanV v) vEq_refl_of_num c.data hc.1,
        matAll2_refl vEq (fun v => !isnanV v) vEq_refl_of_num c.time_index hc.2]
    rfl

/-- Witness for the amended C6 theorem at concrete containers. -/
theorem taEq_symm_and_refl_on_finite_witness :
    taEq cAddL cAddR = taEq cAddR cAddL
    ∧ (noNan cRound = true ∧ taEq cRound cRound = true) :=
  ⟨taEq_symm_and_refl_on_finite.1 cAddL cAddR,
   by decide,
   taEq_symm_and_refl_on_finite.2 cRound (by decide)⟩

/-- C10: constructing a TimeArray from no data yields the 1-row, 0-column
container whose time index is also 1 x 0, and isna reports its single row
missing. -/
theorem default_container_single_missing_row :
    mkTA none none = Except.ok (⟨[[]], [[]]⟩ : TimeArray)
    ∧ isna ⟨[[]], [[]]⟩ = [true] := by decide

/-- C7: when the input list holds at least one resolved series and at
least one None, and from_list returns a container, that container has the
width of the first resolved item, one row per item, every None input has
become an all-sentinel row of that width in both matrices, and isMissing
reports exactly the None positions (the resolved items being themselves
non-missing). -/
theorem from_list_pads_missing_rows (items : List Item) (c : TimeArray)
    (hres : ∃ tb, some tb ∈ items)
    (hmiss : (none : Item) ∈ items)
    (hnotna : ∀ tb, some tb ∈ items → tbIsna tb = false)
    (hok : from_list items = Except.ok c) :
    ncols c.data = firstWidth items
    ∧ ncols c.time_index = firstWidth items
    ∧ nrows c.data = items.length
    ∧ (∀ i : Nat, items[i]? = some none →
        c.data[i]? = some (List.replicate (firstWidth items) Val.nan)
        ∧ c.time_index[i]? = some (List.replicate (firstWidth items) Val.nan))
    ∧ isna c = items.map Option.isNone := by
  obtain ⟨tb0, htb0⟩ := hres
  unfold from_list at hok
  split at hok
  · exact absurd hok (by simp)
  next hbad =>
    split at hok
    next hall => exact absurd (List.all_eq_true.mp hall _ htb0) (by simp)
    next hnone =>
      split at hok
      next hw =>
        simp only [mkTA, taDataOf, taTimeOf] at hok
        unfold finishTA at hok
        split at hok
        · cases Except.ok.inj hok
          have hbad2 : ∀ tb : TimeBase, some tb ∈ items →
              tb.data.length = tb.time_index.length := by
            intro tb htb
            by_contra hne
            apply hbad
            rw [List.any_eq_true]
            exact ⟨some tb, htb, by simpa [beq_iff_eq] using hne⟩
          have hw2 : ∀ tb : TimeBase, some tb ∈ items →
              tb.data.length = firstWidth items := by
            intro tb htb
            have h3 := List.all_eq_true.mp hw (some tb) htb
            simpa [beq_iff_eq] using h3
          refine ⟨?_, ?_, ?_, ?_, ?_⟩
          · cases items with
            | nil => cases htb0
            | cons it rest =>
              cases it with
              | none => simp [ncols, rowOfItem]
              | some tb =>
                simp only [ncols, List.map_cons, List.headD_cons, rowOfItem]
                exact hw2 tb (by simp)
          · cases items with
            | nil => cases htb0
            | cons it rest =>
              cases it with
              | none => simp [ncols, tRowOfItem]
              | some tb =>
                simp only [ncols, List.map_cons, List.headD_cons, tRowOfItem]
                rw [← hbad2 tb (by simp)]
                exact hw2 tb (by simp)
          · simp [nrows]
          · intro i hi
            constructor
            · show (items.map (rowOfItem (firstWidth items)))[i]? = _
              rw [List.getElem?_map, hi]
              rfl
            · show (items.map (tRowOfItem (firstWidth items)))[i]? = _
              rw [List.getElem?_map, hi]
              rfl
          · show List.zipWith _ (items.map (rowOfItem (firstWidth items)))
              (items.map (tRowOfItem (firstWidth items))) = _
            rw [zipWithMapMap]
            apply List.map_congr_left
            intro it hit
            cases it with
            | none => simp [rowOfItem, tRowOfItem, isnanV]
            | some tb => simpa [rowOfItem, tRowOfItem, tbIsna] using hnotna tb hit
        · exact absurd hok (by simp)
      · exact absurd hok (by simp)

/-- Witness for the C7 theorem at the concrete input of one width-3
series and one None: the result is 2 x 3, its second row is all-sentinel,
and isna reports exactly the None position. -/
theorem from_list_pads_missing_rows_witness :
    ncols cPadRes.data = firstWidth padItems
    ∧ ncols cPadRes.time_index = firstWidth padItems
    ∧ nrows cPadRes.data = padItems.length
    ∧ (∀ i : Nat, padItems[i]? = some none →
        cPadRes.data[i]? = some (List.replicate (firstWidth padItems) Val.nan)
        ∧ cPadRes.time_index[i]? = some (List.replicate (firstWidth padItems) Val.nan))
    ∧ isna cPadRes = padItems.map Option.isNone :=
  from_list_pads_missing_rows padItems cPadRes
    ⟨sPad, by simp [padItems]⟩ (by simp [padItems])
    (fun tb htb => by
      simp [padItems] at htb
      subst htb
      decide)
    (by decide)

theorem getElemQ_lt {α : Type} {l : List α} {k : Nat} {a : α}
    (h : l[k]? = some a) : k < l.length := by
  by_contra hk
  rw [List.getElem?_eq_none (by omega)] at h
  cases h

theorem pdTakeFill_inv {m : Matrix'} {idxs : List Int} {r : Matrix'}
    (h : pdTakeFill m idxs = Except.ok r) :
    r = idxs.map (fun i =>
      if i = -1 then List.replicate (ncols m) Val.nan else m.getD i.toNat []) := by
  unfold pdTakeFill at h
  split at h
  · exact absurd h (by simp)
  · split at h
    · exact absurd h (by simp)
    · exact (Except.ok.inj h).symm

theorem zipWith_replicate_same {α β γ : Type} (f : α → β → γ) (a : α) (b : β) :
    ∀ n : Nat, List.zipWith f (List.replicate n a) (List.replicate n b)
      = List.replicate n (f a b) := by
  intro n
  induction n with
  | zero => rfl
  | succ m ih => simp [List.replicate_succ, ih]

theorem mkTA_nanmat0 {n : Nat} (hn : n ≠ 0) :
    mkTA (some (Sum.inr (nanMat n 0))) none = Except.ok ⟨nanMat n 0, nanMat n 0⟩ := by
  match n, hn with
  | 1, _ => decide
  | (m + 2), _ =>
    have hrow : nanMat (m + 2) 0 = List.replicate (m + 2) ([] : List Val) := rfl
    simp [mkTA, taDataOf, taTimeOf, finishTA, hrow, nrows, ncols, natRange,
      checkDataIndex, isRect, sameShape, List.replicate_succ]

/-- C8 counterexample: the claim says take with allow_fill and no fill
value succeeds on any integer indices and turns out-of-range positions
into missing rows; on a 2-row container the index 5 instead raises
IndexError, because the pandas take contract only treats -1 as the
missing marker. -/
theorem take_out_of_range_with_fill_raises :
    takeTA cGather [5] true FillV.null = Except.error Err.IndexOutOfRange := by decide

/-- C8 (amended): take with allow_fill and no explicit fill value, when
it returns a container, yields one row per requested index and every -1
position (the fill marker of the pandas take contract) is reported
missing; indices at or above the row count raise IndexOutOfRange instead
of becoming missing rows. -/
theorem take_fill_null_gathers_missing {c : TimeArray} {idxs : List Int} {d : TimeArray}
    (hok : takeTA c idxs true FillV.null = Except.ok d) :
    nrows d.data = idxs.length
    ∧ ∀ k : Nat, idxs[k]? = some (-1) → (isna d)[k]? = some true := by
  unfold takeTA at hok
  obtain ⟨d0, hd0, hok⟩ := exceptBind_ok hok
  obtain ⟨t0, ht0, hok⟩ := exceptBind_ok hok
  obtain ⟨d1, hd1, hok⟩ := exceptBind_ok hok
  obtain ⟨t1, ht1, hok⟩ := exceptBind_ok hok
  replace hd1 : Except.ok d0 = Except.ok d1 := hd1
  replace ht1 : Except.ok t0 = Except.ok t1 := ht1
  cases Except.ok.inj hd1
  cases Except.ok.inj ht1
  replace hd0 : pdTakeFill c.data idxs = Except.ok d0 := hd0
  replace ht0 : pdTakeFill c.time_index idxs = Except.ok t0 := ht0
  have hD := pdTakeFill_inv hd0
  have hT := pdTakeFill_inv ht0
  split at hok
  next hcoll =>
    have hn : nrows d0 ≠ 0 := by
      simp only [Bool.and_eq_true, decide_eq_true_eq] at hcoll
      exact hcoll.1
    rw [mkTA_nanmat0 hn] at hok
    cases Except.ok.inj hok
    constructor
    · show nrows (nanMat (nrows d0) 0) = idxs.length
      simp [nanMat, nrows, hD]
    · intro k hk
      have hklt : k < idxs.length := getElemQ_lt hk
      show (isna ⟨nanMat (nrows d0) 0, nanMat (nrows d0) 0⟩)[k]? = some true
      have hiso : isna ⟨nanMat (nrows d0) 0, nanMat (nrows d0) 0⟩
          = List.replicate (nrows d0) true := by
        unfold isna nanMat
        rw [zipWith_replicate_same]
        rfl
      rw [hiso]
      rw [List.getElem?_replicate]
      have hkd : k < nrows d0 := by
        rw [hD]
        simpa [nrows] using hklt
      simp [hkd]
  next hncoll =>
    simp only [mkTA, taDataOf, taTimeOf] at hok
    unfold finishTA at hok
    split at hok
    · cases Except.ok.inj hok
      constructor
      · show nrows d0 = idxs.length
        rw [hD]
        simp [nrows]
      · intro k hk
        show (isna ⟨d0, t0⟩)[k]? = some true
        unfold isna
        rw [hD, hT, zipWithMapMap, List.getElem?_map, hk]
        simp [isnanV]
    · exact absurd hok (by simp)

/-- Witness for the amended C8 theorem: gathering index -1 from the
concrete 2-row container returns one row, reported missing. -/
theorem take_fill_null_gathers_missing_witness :
    nrows (⟨[[]], [[]]⟩ : TimeArray).data = [(-1 : Int)].length
    ∧ ∀ k : Nat, ([(-1 : Int)])[k]? = some (-1) →
        (isna ⟨[[]], [[]]⟩)[k]? = some true := by
  have h : takeTA cGather [-1] true FillV.null = Except.ok (⟨[[]], [[]]⟩ : TimeArray) := by
    decide
  exact take_fill_null_gathers_missing h

theorem resolveIdx_lt {i : Int} {n k : Nat} (h : resolveIdx i n = Except.ok k) : k < n := by
  unfold resolveIdx at h
  split at h
  next h1 =>
    cases Except.ok.inj h
    omega
  next =>
    split at h
    next h2 =>
      cases Except.ok.inj h
      omega
    next => exact absurd h (by simp)

theorem broadcastRow_len {src : List Val} {w : Nat} {r : List Val}
    (h : broadcastRow src w = Except.ok r) : r.length = w := by
  unfold broadcastRow at h
  split at h
  next hl =>
    cases Except.ok.inj h
    assumption
  next =>
    split at h
    · cases Except.ok.inj h
      simp
    · exact absurd h (by simp)

theorem rowLen_of_isRect {m : Matrix'} {k : Nat}
    (hm : isRect m = true) (hk : k < m.length) : (m.getD k []).length = ncols m := by
  have hmem : m.getD k [] ∈ m := by
    rw [List.getD_eq_getElem m [] hk]
    exact List.getElem_mem hk
  have hall := List.all_eq_true.mp hm _ hmem
  simpa [beq_iff_eq] using hall

theorem ncols_set {m : Matrix'} {k : Nat} {r : List Val}
    (hk : k < m.length) (hr : r.length = (m.getD k []).length) :
    ncols (m.set k r) = ncols m := by
  cases m with
  | nil => simp at hk
  | cons h t =>
    cases k with
    | zero => simpa [ncols, List.set] using hr
    | succ j => simp [ncols, List.set]

theorem isRect_set {m : Matrix'} {k : Nat} {r : List Val}
    (hm : isRect m = true) (hk : k < m.length) (hr : r.length = ncols m) :
    isRect (m.set k r) = true := by
  unfold isRect
  rw [List.all_eq_true]
  intro x hx
  rcases List.mem_or_eq_of_mem_set hx with hmem | hx
  · have hlx := List.all_eq_true.mp hm _ hmem
    rw [ncols_set hk]
    · exact hlx
    · rw [rowLen_of_isRect hm hk]
      exact hr
  · subst hx
    rw [ncols_set hk]
    · simp [hr]
    · rw [rowLen_of_isRect hm hk]
      exact hr

theorem wfTA_iff {c : TimeArray} :
    wfTA c = true ↔ (isRect c.data = true ∧ isRect c.time_index = true
      ∧ nrows c.data = nrows c.time_index ∧ ncols c.data = ncols c.time_index) := by
  unfold wfTA checkDataIndex sameShape
  simp only [Bool.and_eq_true, beq_iff_eq]
  tauto

theorem setRows_wf {c : TimeArray} {k : Nat} {rd rt : List Val}
    (hwf : wfTA c = true) (hk : k < nrows c.data)
    (hrd : rd.length = (c.data.getD k []).length)
    (hrt : rt.length = (c.time_index.getD k []).length) :
    wfTA ⟨c.data.set k rd, c.time_index.set k rt⟩ = true := by
  obtain ⟨h1, h2, h3, h4⟩ := wfTA_iff.mp hwf
  have hk1 : k < c.data.length := hk
  have hk2 : k < c.time_index.length := by
    unfold nrows at h3
    omega
  apply wfTA_iff.mpr
  refine ⟨?_, ?_, ?_, ?_⟩
  · exact isRect_set h1 hk1 (by rw [hrd, rowLen_of_isRect h1 hk1])
  · exact isRect_set h2 hk2 (by rw [hrt, rowLen_of_isRect h2 hk2])
  · show (c.data.set k rd).length = (c.time_index.set k rt).length
    unfold nrows at h3
    simp [h3]
  · rw [ncols_set hk1 hrd, ncols_set hk2 hrt]
    exact h4

theorem indexSet_wfAux {c : TimeArray} {key : Int} {v : Option TimeBase} {d : TimeArray}
    (hwf : wfTA c = true) (h : indexSet c key v = Except.ok d) : wfTA d = true := by
  unfold indexSet at h
  obtain ⟨k, hk, h⟩ := exceptBind_ok h
  have hklt : k < nrows c.data := resolveIdx_lt hk
  cases v with
  | none =>
    replace h : Except.ok (⟨c.data.set k (List.replicate (c.data.getD k []).length Val.nan),
        c.time_index.set k (List.replicate (c.time_index.getD k []).length Val.nan)⟩
        : TimeArray) = Except.ok d := h
    cases Except.ok.inj h
    exact setRows_wf hwf hklt (by simp) (by simp)
  | some tb =>
    replace h : (if tbIsna tb = true then
        (pure ⟨c.data.set k (List.replicate (c.data.getD k []).length Val.nan),
              c.time_index.set k (List.replicate (c.time_index.getD k []).length Val.nan)⟩
         : Except Err TimeArray)
      else do
        let nd ← broadcastRow tb.data (c.data.getD k []).length
        let nt ← broadcastRow tb.time_index (c.time_index.getD k []).length
        pure ⟨c.data.set k nd, c.time_index.set k nt⟩) = Except.ok d := h
    split at h
    · replace h : Except.ok (⟨c.data.set k (List.replicate (c.data.getD k []).length Val.nan),
          c.time_index.set k (List.replicate (c.time_index.getD k []).length Val.nan)⟩
          : TimeArray) = Except.ok d := h
      cases Except.ok.inj h
      exact setRows_wf hwf hklt (by simp) (by simp)
    · obtain ⟨nd, hnd, h⟩ := exceptBind_ok h
      obtain ⟨nt, hnt, h⟩ := exceptBind_ok h
      replace h : Except.ok (⟨c.data.set k nd, c.time_index.set k nt⟩ : TimeArray)
          = Except.ok d := h
      cases Except.ok.inj h
      exact setRows_wf hwf hklt (broadcastRow_len hnd) (broadcastRow_len hnt)

theorem from_list_wfAux {items : List Item} {c : TimeArray}
    (h : from_list items = Except.ok c) : wfTA c = true := by
  unfold from_list at h
  split at h
  · exact absurd h (by simp)
  · split at h
    · exact mkTA_wf h
    · split at h
      · exact mkTA_wf h
      · exact absurd h (by simp)

theorem from_pandas_wfAux {p : PandasInput} {c : TimeArray}
    (h : from_pandas p = Except.ok c) : wfTA c = true := by
  cases p with
  | ser items => exact from_list_wfAux h
  | frame cols cells => exact mkTA_wf h

theorem indexGetSeq_wfAux {c : TimeArray} {idxs : List Int} {d : TimeArray}
    (h : indexGetSeq c idxs = Except.ok d) : wfTA d = true := by
  unfold indexGetSeq at h
  obtain ⟨x, hx, h⟩ := exceptBind_ok h
  obtain ⟨y, hy, h⟩ := exceptBind_ok h
  exact mkTA_wf h

theorem takeTA_wfAux {c : TimeArray} {idxs : List Int} {af : Bool} {fv : FillV}
    {d : TimeArray} (h : takeTA c idxs af fv = Except.ok d) : wfTA d = true := by
  unfold takeTA at h
  obtain ⟨d0, hd0, h⟩ := exceptBind_ok h
  obtain ⟨t0, ht0, h⟩ := exceptBind_ok h
  obtain ⟨d1, hd1, h⟩ := exceptBind_ok h
  obtain ⟨t1, ht1, h⟩ := exceptBind_ok h
  split at h
  · exact mkTA_wf h
  · exact mkTA_wf h

theorem concatTA_wfAux {ls : List TimeArray} {c : TimeArray}
    (h : concatTA ls = Except.ok c) : wfTA c = true := by
  unfold concatTA at h
  split at h
  · exact mkTA_wf h
  · exact mkTA_wf h
  · exact absurd h (by simp)

theorem addTA_wfAux {a b c : TimeArray} (h : addTA a b = Except.ok c) : wfTA c = true := by
  unfold addTA at h
  split at h
  · exact absurd h (by simp)
  · split at h
    · exact absurd h (by simp)
    · exact mkTA_wf h

theorem copyTA_wfAux {c d : TimeArray} (h : copyTA c = Except.ok d) : wfTA d = true :=
  mkTA_wf h

theorem astypeTA_wfAux {c : TimeArray} {dt : Dtype} {cp : Bool} {d : TimeArray}
    (hwf : wfTA c = true) (h : astypeTA c dt cp = Except.ok (CastResult.ta d)) :
    wfTA d = true := by
  cases dt with
  | time =>
    replace h : (if cp = true then Except.map CastResult.ta (copyTA c)
        else Except.ok (CastResult.ta c)) = Except.ok (CastResult.ta d) := h
    by_cases hcp2 : cp = true
    · rw [if_pos hcp2] at h
      cases hcp : copyTA c with
      | error e =>
        rw [hcp] at h
        simp [Except.map] at h
      | ok v =>
        rw [hcp] at h
        simp only [Except.map] at h
        have hv := Except.ok.inj h
        cases hv
        exact copyTA_wfAux hcp
    · rw [if_neg hcp2] at h
      have hv := Except.ok.inj h
      cases hv
      exact hwf
  | obj => exact absurd h (by simp [astypeTA])
  | strKind => exact absurd h (by simp [astypeTA])
  | other => exact absurd h (by simp [astypeTA])

theorem uniqueTA_wfAux {c d : TimeArray} (h : uniqueTA c = Except.ok d) : wfTA d = true := by
  unfold uniqueTA at h
  exact indexGetSeq_wfAux h

theorem slice_time_wfAux {c : TimeArray} {target : List Val} {d : TimeArray}
    (h : slice_time c target = Except.ok d) : wfTA d = true := by
  unfold slice_time at h
  exact mkTA_wf h

/-- C9: after every public operation that yields a container
(construction, from_list, from_pandas, sequence indexGet, in-place
indexSet, take, concat, add, copy, the identity astype, unique,
slice_time), the value matrix and the time-index matrix of the result are
well-shaped and share one shape; indexSet and the copy-free astype
preserve the invariant of a well-formed input. -/
theorem public_ops_preserve_shape :
    (∀ (da : Option (Sum TimeArray Matrix')) (ti : Option Matrix') (c : TimeArray),
        mkTA da ti = Except.ok c → wfTA c = true)
    ∧ (∀ (items : List Item) (c : TimeArray),
        from_list items = Except.ok c → wfTA c = true)
    ∧ (∀ (p : PandasInput) (c : TimeArray),
        from_pandas p = Except.ok c → wfTA c = true)
    ∧ (∀ (c : TimeArray) (idxs : List Int) (d : TimeArray),
        indexGetSeq c idxs = Except.ok d → wfTA d = true)
    ∧ (∀ (c : TimeArray) (key : Int) (v : Option TimeBase) (d : TimeArray),
        wfTA c = true → indexSet c key v = Except.ok d → wfTA d = true)
    ∧ (∀ (c : TimeArray) (idxs : List Int) (af : Bool) (fv : FillV) (d : TimeArray),
        takeTA c idxs af fv = Except.ok d → wfTA d = true)
    ∧ (∀ (ls : List TimeArray) (c : TimeArray),
        concatTA ls = Except.ok c → wfTA c = true)
    ∧ (∀ (a b c : TimeArray), addTA a b = Except.ok c → wfTA c = true)
    ∧ (∀ (c d : TimeArray), copyTA c = Except.ok d → wfTA d = true)
    ∧ (∀ (c : TimeArray) (dt : Dtype) (cp : Bool) (d : TimeArray),
        wfTA c = true → astypeTA c dt cp = Except.ok (CastResult.ta d) → wfTA d = true)
    ∧ (∀ (c d : TimeArray), uniqueTA c = Except.ok d → wfTA d = true)
    ∧ (∀ (c : TimeArray) (target : List Val) (d : TimeArray),
        slice_time c target = Except.ok d → wfTA d = true) :=
  ⟨fun _ _ _ h => mkTA_wf h,
   fun _ _ h => from_list_wfAux h,
   fun _ _ h => from_pandas_wfAux h,
   fun _ _ _ h => indexGetSeq_wfAux h,
   fun _ _ _ _ hwf h => indexSet_wfAux hwf h,
   fun _ _ _ _ _ h => takeTA_wfAux h,
   fun _ _ h => concatTA_wfAux h,
   fun _ _ _ h => addTA_wfAux h,
   fun _ _ h => copyTA_wfAux h,
   fun _ _ _ _ hwf h => astypeTA_wfAux hwf h,
   fun _ _ h => uniqueTA_wfAux h,
   fun _ _ _ h => slice_time_wfAux h⟩

/-- Witness for the C9 theorem: every public operation applied to a
concrete container produces a result whose two matrices share one shape,
with each hypothesis discharged by evaluation. -/
theorem public_ops_preserve_shape_witness :
    wfTA ⟨[[]], [[]]⟩ = true
    ∧ wfTA cPadRes = true
    ∧ wfTA ⟨[[Val.num 7]], [[Val.num 0]]⟩ = true
    ∧ wfTA ⟨[[Val.num 3, Val.num 4]], [[Val.num 0, Val.num 1]]⟩ = true
    ∧ wfTA ⟨[[Val.nan, Val.nan]], [[Val.nan, Val.nan]]⟩ = true
    ∧ wfTA ⟨[[Val.num 1]], [[Val.num 0]]⟩ = true
    ∧ wfTA ⟨[[Val.num 5, Val.num 6]], [[Val.num 0, Val.num 2]]⟩ = true
    ∧ wfTA ⟨[[Val.num 6, Val.num 8]], [[Val.num 0, Val.num 1]]⟩ = true
    ∧ wfTA ⟨[[Val.num 1], [Val.num 2]], [[Val.num 0], [Val.num 0]]⟩ = true
    ∧ wfTA ⟨[[Val.num 1, Val.num 10]], [[Val.num 0, Val.num 1]]⟩ = true
    ∧ wfTA ⟨[[Val.num 1], [Val.num 1]], [[Val.num 0], [Val.num 0]]⟩ = true
    ∧ wfTA ⟨[[Val.num 3]], [[Val.num 0]]⟩ = true := by
  refine ⟨?_, ?_, ?_, ?_, ?_, ?_, ?_, ?_, ?_, ?_, ?_, ?_⟩
  · exact public_ops_preserve_shape.1 none none ⟨[[]], [[]]⟩ (by decide)
  · exact public_ops_preserve_shape.2.1 padItems cPadRes (by decide)
  · exact public_ops_preserve_shape.2.2.1 (PandasInput.frame [Val.num 0] [[Val.num 7]])
      ⟨[[Val.num 7]], [[Val.num 0]]⟩ (by decide)
  · exact public_ops_preserve_shape.2.2.2.1 cInv [0]
      ⟨[[Val.num 3, Val.num 4]], [[Val.num 0, Val.num 1]]⟩ (by decide)
  · exact public_ops_preserve_shape.2.2.2.2.1 cInv 0 none
      ⟨[[Val.nan, Val.nan]], [[Val.nan, Val.nan]]⟩ (by decide) (by decide)
  · exact public_ops_preserve_shape.2.2.2.2.2.1 cRound [0] false FillV.null
      ⟨[[Val.num 1]], [[Val.num 0]]⟩ (by decide)
  · exact public_ops_preserve_shape.2.2.2.2.2.2.1 [cAddR]
      ⟨[[Val.num 5, Val.num 6]], [[Val.num 0, Val.num 2]]⟩ (by decide)
  · exact public_ops_preserve_shape.2.2.2.2.2.2.2.1 cInv cInv
      ⟨[[Val.num 6, Val.num 8]], [[Val.num 0, Val.num 1]]⟩ (by decide)
  · exact public_ops_preserve_shape.2.2.2.2.2.2.2.2.1 cGather
      ⟨[[Val.num 1], [Val.num 2]], [[Val.num 0], [Val.num 0]]⟩ (by decide)
  · exact public_ops_preserve_shape.2.2.2.2.2.2.2.2.2.1 cAddL Dtype.time true
      ⟨[[Val.num 1, Val.num 10]], [[Val.num 0, Val.num 1]]⟩ (by decide) (by decide)
  · exact public_ops_preserve_shape.2.2.2.2.2.2.2.2.2.2.1 cDup
      ⟨[[Val.num 1], [Val.num 1]], [[Val.num 0], [Val.num 0]]⟩ (by decide)
  · exact public_ops_preserve_shape.2.2.2.2.2.2.2.2.2.2.2 cInv [Val.num 0]
      ⟨[[Val.num 3]], [[Val.num 0]]⟩ (by decide)
